import Mathlib

/-!
# Verification of the ionian particle engine core

A shallow embedding, over `ℚ`, of the simulation/state-orchestration core of
the `polarfront-lab/ionian` repository:

* the target-resolution mapping used by the GPU position/velocity compute
  shaders (`simulationPositionShader.ts`, `simulationVelocityShader.ts`);
* the transition scheduler (`TransitionService`): per-channel FIFO queue,
  single ongoing transition, cooperative cancellation;
* the data-texture atlas builder
  (`DataTextureService.createSequenceDataTextureAtlas`) and the mesh surface
  sampler (`sampleMesh`);
* the simulation renderer service's atlas validation
  (`SimulationRendererService.setPositionAtlas`);
* the engine coordinator's progress and texture-size setters
  (`ParticlesEngine.setOverallProgress`, `ParticlesEngine.setTextureSize`).

JavaScript numbers are modelled as rationals; machine-float rounding is not
load-bearing for any property proved here.  External collaborators
(three.js `MeshSurfaceSampler`, `Math.random`, the GPU) are modelled as
input streams supplied by the caller.
-/

namespace Ionian

/-- `Math.min` on (non-NaN) numbers. -/
def jsMin (a b : ℚ) : ℚ := if a ≤ b then a else b

/-- `Math.max` on (non-NaN) numbers. -/
def jsMax (a b : ℚ) : ℚ := if a ≤ b then b else a

lemma jsMin_eq_min (a b : ℚ) : jsMin a b = min a b := by
  simp [jsMin, min_def]

lemma jsMax_eq_max (a b : ℚ) : jsMax a b = max a b := by
  simp [jsMax, max_def]

/-- `clamp` from `src/lib/utils.ts`:
`value = Math.min(value, max); value = Math.max(value, min); return value`. -/
def clamp (value lo hi : ℚ) : ℚ := jsMax (jsMin value hi) lo

lemma clamp_eq (value lo hi : ℚ) : clamp value lo hi = max (min value hi) lo := by
  rw [clamp, jsMin_eq_min, jsMax_eq_max]

/-- `linear` easing from `src/lib/easing.ts`: the identity. -/
def linear (n : ℚ) : ℚ := n

/-!
## Target-resolution mapping of the compute shaders

Both `simulationPositionShader.ts` and `simulationVelocityShader.ts` contain
the identical "Calculate Target Position from Atlas" block.  It resolves the
overall progress `uOverallProgress` and mesh count `uNumMeshes` into a pair
of atlas indices and a local blend factor.  `resolveTarget` transcribes that
block; the `(0, 0, 0)` result for `M ≤ 1` renders the `uNumMeshes <= 1`
branch, which samples the single grid at index 0 with no blending.
-/

/-- The target-resolution mapping of the compute shaders.  Returns
`(indexA, indexB, localProgress)`.  Mirrors the GLSL statement order:
`indexB` is computed from the unclamped `indexA`, then `indexA` is clamped,
then both indices and the local progress are overridden at
`uOverallProgress == 1.0`. -/
def resolveTarget (M : ℕ) (p : ℚ) : ℤ × ℤ × ℚ :=
  if M ≤ 1 then (0, 0, 0)
  else
    let totalSegments : ℚ := ((M : ℚ) - 1)
    let scaledProgress : ℚ := p * totalSegments
    let indexA0 : ℤ := ⌊scaledProgress⌋
    let indexB : ℤ := min (indexA0 + 1) ((M : ℤ) - 1)
    let indexA : ℤ := min indexA0 ((M : ℤ) - 1)
    let localProgress : ℚ := Int.fract scaledProgress
    if p = 1 then ((M : ℤ) - 1, (M : ℤ) - 1, 1)
    else (indexA, indexB, localProgress)

/-- C1: for `M ≥ 2` and `p ∈ [0,1]` the shaders' mapping computes
`scaledProgress = p·(M−1)`, `indexA = ⌊scaledProgress⌋` clamped to at most
`M−1`, `indexB = min(indexA+1, M−1)`, `localProgress = fract(scaledProgress)`,
with the override `(M−1, M−1, 1)` exactly at `p = 1`; in particular `p = 0`
resolves to `(0, min(1, M−1), 0)` and `p = 1` to `(M−1, M−1, 1)`; and for
`M = 1` every progress resolves to `(0, 0, 0)`. -/
theorem resolveTarget_spec (M : ℕ) (p : ℚ) (hM : 2 ≤ M) (h0 : 0 ≤ p) (h1 : p ≤ 1) :
    resolveTarget M p =
      (if p = 1 then ((M : ℤ) - 1, (M : ℤ) - 1, (1 : ℚ))
       else
        (min ⌊p * ((M : ℚ) - 1)⌋ ((M : ℤ) - 1),
         min (min ⌊p * ((M : ℚ) - 1)⌋ ((M : ℤ) - 1) + 1) ((M : ℤ) - 1),
         Int.fract (p * ((M : ℚ) - 1)))) ∧
    resolveTarget M 0 = (0, min 1 ((M : ℤ) - 1), 0) ∧
    resolveTarget M 1 = ((M : ℤ) - 1, (M : ℤ) - 1, 1) ∧
    (∀ q : ℚ, resolveTarget 1 q = (0, 0, 0)) := by
  have hM' : ¬ M ≤ 1 := by omega
  have hMQ : (1 : ℚ) ≤ (M : ℚ) - 1 := by
    have : (2 : ℚ) ≤ (M : ℚ) := by exact_mod_cast hM
    linarith
  -- the unclamped floor index never exceeds M−1 when p ≤ 1
  have hfloor_le : ∀ q : ℚ, 0 ≤ q → q ≤ 1 → ⌊q * ((M : ℚ) - 1)⌋ ≤ (M : ℤ) - 1 := by
    intro q hq0 hq1
    have hle : q * ((M : ℚ) - 1) ≤ (M : ℚ) - 1 := by nlinarith
    have hc : ((⌊q * ((M : ℚ) - 1)⌋ : ℤ) : ℚ) ≤ (((M : ℤ) - 1 : ℤ) : ℚ) := by
      push_cast
      linarith [Int.floor_le (q * ((M : ℚ) - 1))]
    exact_mod_cast hc
  refine ⟨?_, ?_, ?_, ?_⟩
  · by_cases hp : p = 1
    · simp [resolveTarget, hM', hp]
    · have hA := hfloor_le p h0 h1
      have : min (min ⌊p * ((M : ℚ) - 1)⌋ ((M : ℤ) - 1) + 1) ((M : ℤ) - 1)
          = min (⌊p * ((M : ℚ) - 1)⌋ + 1) ((M : ℤ) - 1) := by omega
      simp only [resolveTarget, hM', if_false, hp, if_neg hp, ite_false]
      rw [this]
  · have hz : (0 : ℚ) * ((M : ℚ) - 1) = 0 := by ring
    have hne : (0 : ℚ) ≠ 1 := by norm_num
    simp only [resolveTarget, hM', if_false, ite_false, if_neg hne]
    rw [hz]
    simp
    omega
  · simp [resolveTarget, hM']
  · intro q
    simp [resolveTarget]

/-- Witness for `resolveTarget_spec` at `M = 3`, `p = 1/2` (the spec's
"boundary behavior must be explicitly tested at p=0.5 for M=3" point). -/
theorem resolveTarget_spec_witness :
    ((2 ≤ 3 ∧ (0 : ℚ) ≤ 1/2 ∧ (1/2 : ℚ) ≤ 1) ∧
      resolveTarget 3 (1/2) = (1, 2, 0) ∧
      resolveTarget 3 0 = (0, 1, 0) ∧
      resolveTarget 3 1 = (2, 2, 1) ∧
      resolveTarget 1 (1/2) = (0, 0, 0)) := by
  have h := resolveTarget_spec 3 (1/2) (by norm_num) (by norm_num) (by norm_num)
  refine ⟨⟨by norm_num, by norm_num, by norm_num⟩, ?_, ?_, ?_, h.2.2.2 (1/2)⟩
  · have h1 := h.1
    rw [if_neg (by norm_num)] at h1
    rw [h1]
    norm_num [Int.fract]
  · exact h.2.1.trans (by decide)
  · exact h.2.2.1

/-!
## Transition scheduler (`TransitionService`)

The service keeps, per channel (`TransitionType`), a FIFO queue
(`transitions: Map<TransitionType, Array<TransitionQueueItem>>`) and at most
one ongoing transition (`ongoingTransitions: Map<TransitionType,
OngoingTransition>`).  The channels are fully independent — `compute`
handles each channel's queue and ongoing entry separately — so the
embedding models a single channel's state; the at-most-one-entry-per-key
property of the `ongoingTransitions` map appears as an `Option`.

Callbacks cannot be observed directly in a pure model, so every operation
returns the list of callback invocations and bus emissions it performs, in
order, as `TransitionEvent`s.  An item's optional callbacks are represented
by always recording the invocation point.  Transitions carry a numeric `id`
purely to identify instances in the event trace.
-/

/-- A queued transition (`TransitionQueueItem` in `transitionService.ts`):
`{ cancelled, duration, easing } & callbacks`, where `enqueue` stores
`duration * 0.001` (milliseconds normalised to seconds). -/
structure TransitionQueueItem where
  id : ℕ
  cancelled : Bool
  duration : ℚ
  easing : ℚ → ℚ

/-- An ongoing transition: a queue item plus its recorded `startTime`. -/
structure OngoingTransition where
  item : TransitionQueueItem
  startTime : ℚ

/-- One channel's slice of the `TransitionService` state. -/
structure ChannelState where
  queue : List TransitionQueueItem
  ongoing : Option OngoingTransition

/-- Observable effects of the scheduler: callback invocations
(`onTransitionBegin/Progress/Finished/Cancelled`) and bus emissions
(`transitionProgressed` / `transitionFinished`). -/
inductive TransitionEvent where
  | onBegin (id : ℕ)
  | onProgress (id : ℕ) (progress : ℚ)
  | onFinished (id : ℕ)
  | onCancelled (id : ℕ)
  | busProgressed (progress : ℚ)
  | busFinished
deriving DecidableEq

/-- Fresh channel state: empty queue, nothing ongoing. -/
def initialChannelState : ChannelState := ⟨[], none⟩

/-- `TransitionService.enqueue`: appends a queue item with
`cancelled: false` and `duration: transition.duration * 0.001`. -/
def TransitionService.enqueue (id : ℕ) (duration : ℚ) (easing : ℚ → ℚ)
    (s : ChannelState) : ChannelState :=
  { s with queue := s.queue ++ [⟨id, false, duration * (1 / 1000), easing⟩] }

/-- Phase 1 of `TransitionService.compute`: if the channel has no ongoing
transition and its queue is non-empty, shift the head, record `startTime :=
elapsedTime`, and invoke `onTransitionBegin`. -/
def promote (elapsedTime : ℚ) (s : ChannelState) :
    ChannelState × List TransitionEvent :=
  match s.ongoing, s.queue with
  | none, t :: rest => (⟨rest, some ⟨t, elapsedTime⟩⟩, [.onBegin t.id])
  | _, _ => (s, [])

/-- Phase 2 of `TransitionService.compute`, for the (at most one) ongoing
transition: a cancelled transition invokes `onTransitionCancelled` and is
retired; otherwise `progress = clamp(easing(min(1, (elapsedTime −
startTime) / duration)), 0, 1)` is emitted on the bus and to `onProgress`,
and `progress ≥ 1` additionally emits `transitionFinished`, invokes
`onTransitionFinished` and retires the transition.

Caveat: the embedding is faithful only for non-zero durations.  At
`duration = 0` rational division gives `timeDistance / 0 = 0`, whereas the
JavaScript float division gives `NaN` on the promoting tick
(`timeDistance = 0`) and `+Infinity` — hence progress `1` and completion —
on any later tick.  No theorem below instantiates a zero duration. -/
def tickOngoing (elapsedTime : ℚ) (s : ChannelState) :
    ChannelState × List TransitionEvent :=
  match s.ongoing with
  | none => (s, [])
  | some o =>
    if o.item.cancelled then
      (⟨s.queue, none⟩, [.onCancelled o.item.id])
    else
      let timeDistance := elapsedTime - o.startTime
      let progress := clamp (o.item.easing (jsMin 1 (timeDistance / o.item.duration))) 0 1
      if 1 ≤ progress then
        (⟨s.queue, none⟩,
         [.busProgressed progress, .onProgress o.item.id progress,
          .busFinished, .onFinished o.item.id])
      else
        (s, [.busProgressed progress, .onProgress o.item.id progress])

/-- `TransitionService.compute(elapsedTime)` on one channel: promotion of
the queue head (phase 1) followed by processing of the ongoing transition
(phase 2) — a transition promoted in phase 1 is already visible to
phase 2's `ongoingTransitions.forEach` in the same call. -/
def TransitionService.compute (elapsedTime : ℚ) (s : ChannelState) :
    ChannelState × List TransitionEvent :=
  let r1 := promote elapsedTime s
  let r2 := tickOngoing elapsedTime r1.1
  (r2.1, r1.2 ++ r2.2)

/-- `TransitionService.handleTransitionCancelledEvent` (the handler of the
`transitionCancelled` bus event, dispatched synchronously by `mitt`): pops
every pending queue item without invoking anything, then — if a transition
is ongoing — sets its `cancelled` flag **and invokes
`onTransitionCancelled` immediately**. -/
def TransitionService.cancel (s : ChannelState) :
    ChannelState × List TransitionEvent :=
  match s.ongoing with
  | none => (⟨[], none⟩, [])
  | some o =>
      (⟨[], some ⟨{ o.item with cancelled := true }, o.startTime⟩⟩,
       [.onCancelled o.item.id])

/-- A client-visible operation on one channel of the scheduler. -/
inductive TransitionOp where
  | enqueue (id : ℕ) (duration : ℚ) (easing : ℚ → ℚ)
  | compute (elapsedTime : ℚ)
  | cancel

/-- Whether an operation is a cancellation. -/
def TransitionOp.isCancel : TransitionOp → Bool
  | .cancel => true
  | _ => false

/-- Apply one operation, returning the new state and emitted events. -/
def stepOp (s : ChannelState) : TransitionOp → ChannelState × List TransitionEvent
  | .enqueue id d e => (TransitionService.enqueue id d e s, [])
  | .compute t => TransitionService.compute t s
  | .cancel => TransitionService.cancel s

/-- Run a sequence of operations, concatenating the event traces. -/
def runOps (s : ChannelState) : List TransitionOp → ChannelState × List TransitionEvent
  | [] => (s, [])
  | op :: rest =>
    let r := stepOp s op
    let r2 := runOps r.1 rest
    (r2.1, r.2 ++ r2.2)

/-- The ids of `onBegin` invocations in a trace, in order. -/
def beginIds (evs : List TransitionEvent) : List ℕ :=
  evs.filterMap fun ev =>
    match ev with
    | .onBegin id => some id
    | _ => none

/-- The ids enqueued by a sequence of operations, in order. -/
def enqueueIds (ops : List TransitionOp) : List ℕ :=
  ops.filterMap fun op =>
    match op with
    | .enqueue id _ _ => some id
    | _ => none

/-- The transition instance an event belongs to (`none` for the bus-only
events, which carry no instance in the model). -/
def eventId : TransitionEvent → Option ℕ
  | .onBegin id => some id
  | .onProgress id _ => some id
  | .onFinished id => some id
  | .onCancelled id => some id
  | .busProgressed _ => none
  | .busFinished => none

/-! ### Basic facts about the scheduler's phases -/

/-- Phase 1 is a no-op when a transition is already ongoing. -/
lemma promote_busy (t : ℚ) (s : ChannelState) (h : s.ongoing ≠ none) :
    promote t s = (s, []) := by
  obtain ⟨q, og⟩ := s
  cases og with
  | none => exact absurd rfl h
  | some o => cases q <;> rfl

/-- Phase 1 is a no-op when the queue is empty. -/
lemma promote_empty (t : ℚ) (s : ChannelState) (h : s.queue = []) :
    promote t s = (s, []) := by
  obtain ⟨q, og⟩ := s
  dsimp only at h
  subst h
  cases og <;> rfl

/-- Phase 2 never touches the queue. -/
lemma tickOngoing_queue (t : ℚ) (s : ChannelState) :
    (tickOngoing t s).1.queue = s.queue := by
  obtain ⟨q, og⟩ := s
  cases og with
  | none => rfl
  | some o =>
    simp only [tickOngoing]
    split
    · rfl
    · split <;> rfl

/-- Phase 2 never invokes `onTransitionBegin`. -/
lemma beginIds_tickOngoing (t : ℚ) (s : ChannelState) :
    beginIds (tickOngoing t s).2 = [] := by
  obtain ⟨q, og⟩ := s
  cases og with
  | none => rfl
  | some o =>
    simp only [tickOngoing]
    split
    · rfl
    · split <;> rfl

/-- `beginIds` distributes over concatenation of traces. -/
lemma beginIds_append (l₁ l₂ : List TransitionEvent) :
    beginIds (l₁ ++ l₂) = beginIds l₁ ++ beginIds l₂ := by
  simp [beginIds]

/-- One `compute` call moves the begun ids from the front of the queue into
the trace: begins-then-remaining-queue is an invariant of phase 1+2. -/
lemma compute_beginIds_queue (t : ℚ) (s : ChannelState) :
    beginIds (TransitionService.compute t s).2
        ++ ((TransitionService.compute t s).1.queue.map TransitionQueueItem.id)
      = s.queue.map TransitionQueueItem.id := by
  obtain ⟨q, og⟩ := s
  cases og with
  | some o =>
    have hp : promote t ⟨q, some o⟩ = (⟨q, some o⟩, []) := by cases q <;> rfl
    simp only [TransitionService.compute, hp]
    rw [beginIds_append, beginIds_tickOngoing, tickOngoing_queue]
    simp [beginIds]
  | none =>
    cases q with
    | nil => rfl
    | cons hitem rest =>
      have hp : promote t ⟨hitem :: rest, none⟩
          = (⟨rest, some ⟨hitem, t⟩⟩, [.onBegin hitem.id]) := rfl
      simp only [TransitionService.compute, hp]
      rw [beginIds_append, beginIds_tickOngoing, tickOngoing_queue]
      simp [beginIds]

/-- FIFO invariant over a whole run: begun ids followed by the ids still
queued equal the initially queued ids followed by all enqueued ids. -/
lemma runOps_fifo (ops : List TransitionOp) (s : ChannelState)
    (h : ∀ op ∈ ops, op.isCancel = false) :
    beginIds (runOps s ops).2
        ++ ((runOps s ops).1.queue.map TransitionQueueItem.id)
      = (s.queue.map TransitionQueueItem.id) ++ enqueueIds ops := by
  induction ops generalizing s with
  | nil => simp [runOps, enqueueIds, beginIds]
  | cons op rest ih =>
    have hrest : ∀ op' ∈ rest, op'.isCancel = false := fun op' h' => h op' (by simp [h'])
    cases op with
    | enqueue id d e =>
      simp only [runOps, stepOp, List.nil_append]
      rw [ih _ hrest]
      simp [TransitionService.enqueue, enqueueIds, List.filterMap_cons]
    | compute t =>
      simp only [runOps, stepOp]
      rw [beginIds_append, List.append_assoc, ih _ hrest, ← List.append_assoc,
        compute_beginIds_queue]
      simp [enqueueIds, List.filterMap_cons]
    | cancel =>
      exact absurd (h .cancel (by simp)) (by simp [TransitionOp.isCancel])

/-- C2: per channel at most one transition is active at a time (the ongoing
slot is a single `Option`, mirroring the one-entry-per-key
`ongoingTransitions` map) and enqueue never preempts: enqueueing leaves the
ongoing transition untouched and appends to the FIFO queue; a `compute`
call begins a transition exactly when the channel is idle with a non-empty
queue, and then begins precisely the queue head; and over any run without
cancellation the begun ids followed by the still-queued ids equal the
enqueued ids in FIFO order — so once the queue has drained, enqueueing `N`
transitions has produced exactly `N` `onBegin` invocations in FIFO order. -/
theorem transition_fifo_spec (ops : List TransitionOp)
    (hnc : ∀ op ∈ ops, op.isCancel = false) :
    beginIds (runOps initialChannelState ops).2
        ++ ((runOps initialChannelState ops).1.queue.map TransitionQueueItem.id)
      = enqueueIds ops ∧
    ((runOps initialChannelState ops).1.queue = [] →
      beginIds (runOps initialChannelState ops).2 = enqueueIds ops) ∧
    (∀ (id : ℕ) (d : ℚ) (e : ℚ → ℚ) (s : ChannelState),
      (TransitionService.enqueue id d e s).ongoing = s.ongoing ∧
      (TransitionService.enqueue id d e s).queue
        = s.queue ++ [⟨id, false, d * (1 / 1000), e⟩]) ∧
    (∀ (t : ℚ) (s : ChannelState), (s.ongoing ≠ none ∨ s.queue = []) →
      beginIds (TransitionService.compute t s).2 = []) ∧
    (∀ (t : ℚ) (s : ChannelState) (hd : TransitionQueueItem)
        (rest : List TransitionQueueItem),
      s.ongoing = none → s.queue = hd :: rest →
      beginIds (TransitionService.compute t s).2 = [hd.id]) := by
  have h0 : initialChannelState.queue.map TransitionQueueItem.id = [] := rfl
  have hmain := runOps_fifo ops initialChannelState hnc
  rw [h0, List.nil_append] at hmain
  refine ⟨hmain, ?_, ?_, ?_, ?_⟩
  · intro hq
    rw [hq, List.map_nil, List.append_nil] at hmain
    exact hmain
  · intro id d e s
    exact ⟨rfl, rfl⟩
  · intro t s h
    have hp : promote t s = (s, []) := by
      rcases h with h | h
      · exact promote_busy t s h
      · exact promote_empty t s h
    simp only [TransitionService.compute, hp]
    rw [beginIds_append, beginIds_tickOngoing]
    rfl
  · intro t s hd rest hog hq
    obtain ⟨q, og⟩ := s
    dsimp only at hog hq
    subst hog
    subst hq
    have hp : promote t ⟨hd :: rest, none⟩
        = (⟨rest, some ⟨hd, t⟩⟩, [.onBegin hd.id]) := rfl
    simp only [TransitionService.compute, hp]
    rw [beginIds_append, beginIds_tickOngoing]
    simp [beginIds]

/-- Witness for `transition_fifo_spec`: two transitions enqueued on one
channel, three `compute` calls; both begin, in FIFO order, once each. -/
theorem transition_fifo_spec_witness :
    (∀ op ∈ [TransitionOp.enqueue 1 1000 linear, TransitionOp.enqueue 2 500 linear,
             TransitionOp.compute 0, TransitionOp.compute 1, TransitionOp.compute 2],
        op.isCancel = false) ∧
    beginIds (runOps initialChannelState
        [TransitionOp.enqueue 1 1000 linear, TransitionOp.enqueue 2 500 linear,
         TransitionOp.compute 0, TransitionOp.compute 1, TransitionOp.compute 2]).2
      = [1, 2] := by
  refine ⟨by decide, ?_⟩
  have h := transition_fifo_spec
    [TransitionOp.enqueue 1 1000 linear, TransitionOp.enqueue 2 500 linear,
     TransitionOp.compute 0, TransitionOp.compute 1, TransitionOp.compute 2]
    (by decide)
  have h2 := h.2.1 (by with_unfolding_all rfl)
  rw [h2]
  decide

/-- C3 counterexample: one transition made active, then `cancel` while it is
active.  `onCancelled` fires **twice** — once synchronously inside the
cancel handler and once more on the next `compute` — refuting both "exactly
once" and "not synchronously at cancel time". -/
theorem transition_cancel_counterexample :
    ((runOps initialChannelState
        [TransitionOp.enqueue 7 1000 linear, TransitionOp.compute 0,
         TransitionOp.cancel, TransitionOp.compute (1 / 10)]).2
      = [TransitionEvent.onBegin 7, TransitionEvent.busProgressed 0,
         TransitionEvent.onProgress 7 0, TransitionEvent.onCancelled 7,
         TransitionEvent.onCancelled 7]) ∧
    ((runOps initialChannelState
        [TransitionOp.enqueue 7 1000 linear, TransitionOp.compute 0,
         TransitionOp.cancel, TransitionOp.compute (1 / 10)]).2.count
      (TransitionEvent.onCancelled 7) = 2) ∧
    (TransitionService.cancel
        (runOps initialChannelState
          [TransitionOp.enqueue 7 1000 linear, TransitionOp.compute 0]).1).2
      = [TransitionEvent.onCancelled 7] := by
  refine ⟨by with_unfolding_all rfl, ?_, by with_unfolding_all rfl⟩
  with_unfolding_all rfl

/-- C3 amended: cancelling a channel with an active transition invokes that
transition's `onCancelled` once synchronously at cancel time, marks it
cancelled (still occupying the ongoing slot), and empties the queue; the
next `compute` call then invokes `onCancelled` once more and retires the
instance, with no `onProgress`, no `onFinished` and no bus event for it —
so `onCancelled` fires exactly twice in total and nothing further fires. -/
theorem transition_cancel_amended (s : ChannelState) (o : OngoingTransition)
    (h : s.ongoing = some o) :
    (TransitionService.cancel s).2 = [TransitionEvent.onCancelled o.item.id] ∧
    (TransitionService.cancel s).1.ongoing
      = some ⟨{ o.item with cancelled := true }, o.startTime⟩ ∧
    (TransitionService.cancel s).1.queue = [] ∧
    (∀ (t : ℚ) (s' : ChannelState),
      s'.ongoing = some ⟨{ o.item with cancelled := true }, o.startTime⟩ →
      s'.queue = [] →
      TransitionService.compute t s'
        = (⟨[], none⟩, [TransitionEvent.onCancelled o.item.id])) := by
  obtain ⟨q, og⟩ := s
  dsimp only at h
  subst h
  refine ⟨rfl, rfl, rfl, ?_⟩
  intro t s' hog hq
  obtain ⟨q', og'⟩ := s'
  dsimp only at hog hq
  subst hog
  subst hq
  rfl

/-- Witness for `transition_cancel_amended` at a concrete active channel. -/
theorem transition_cancel_amended_witness :
    (ChannelState.mk [] (some ⟨⟨7, false, 1, linear⟩, 0⟩)).ongoing
        = some ⟨⟨7, false, 1, linear⟩, 0⟩ ∧
    (TransitionService.cancel
        ⟨[], some ⟨⟨7, false, 1, linear⟩, 0⟩⟩).2
      = [TransitionEvent.onCancelled 7] :=
  ⟨rfl, (transition_cancel_amended ⟨[], some ⟨⟨7, false, 1, linear⟩, 0⟩⟩
    ⟨⟨7, false, 1, linear⟩, 0⟩ rfl).1⟩

/-- C5 counterexample: a transition enqueued with duration `-1000` ms
(normalised to `-1` s).  On the first `compute` after it becomes active the
progress is `clamp(linear(min(1, 0/(-1))), 0, 1) = 0`, not `≥ 1`: no
`onFinished` fires on that call — nor on any later call — and the
transition never retires (it is still ongoing after three computes). -/
theorem transition_negative_duration_counterexample :
    ((runOps initialChannelState
        [TransitionOp.enqueue 3 (-1000) linear, TransitionOp.compute 0,
         TransitionOp.compute 1, TransitionOp.compute 2]).2
      = [TransitionEvent.onBegin 3, TransitionEvent.busProgressed 0,
         TransitionEvent.onProgress 3 0, TransitionEvent.busProgressed 0,
         TransitionEvent.onProgress 3 0, TransitionEvent.busProgressed 0,
         TransitionEvent.onProgress 3 0]) ∧
    ((runOps initialChannelState
        [TransitionOp.enqueue 3 (-1000) linear, TransitionOp.compute 0,
         TransitionOp.compute 1, TransitionOp.compute 2]).1.ongoing.isSome
      = true) := by
  constructor <;> with_unfolding_all rfl

/-- C5 amended (restricted to strictly negative durations): a duration that
is negative after the milliseconds-to-seconds normalisation does **not**
complete immediately — the division `(elapsedTime − startTime) / duration`
is non-positive on every call, so (with the linear easing) each `compute`
reports progress `0`, `onFinished` never fires, and the transition stays
active indefinitely; no exception is thrown (every call returns normally
with the state unchanged).  A zero duration is outside this statement: its
JavaScript behaviour runs through `NaN` and `+Infinity`, which the rational
model cannot express (see `tickOngoing`). -/
theorem transition_negative_duration_amended :
    (∀ (id : ℕ) (d : ℚ) (e : ℚ → ℚ) (s : ChannelState), d < 0 →
      (TransitionService.enqueue id d e s).queue
          = s.queue ++ [⟨id, false, d * (1 / 1000), e⟩] ∧
        d * (1 / 1000) < 0) ∧
    (∀ (t : ℚ) (s : ChannelState) (o : OngoingTransition),
      s.ongoing = some o → o.item.cancelled = false → o.item.duration < 0 →
      o.item.easing = linear → o.startTime ≤ t →
      TransitionService.compute t s
        = (s, [TransitionEvent.busProgressed 0,
               TransitionEvent.onProgress o.item.id 0])) := by
  constructor
  · intro id d e s hd
    exact ⟨rfl, by linarith⟩
  · intro t s o hog hc hdur heas hst
    have hp : promote t s = (s, []) := promote_busy t s (by rw [hog]; simp)
    have hdiv : (t - o.startTime) / o.item.duration ≤ 0 := by
      rcases eq_or_lt_of_le hst with h | h
      · rw [← h]
        simp
      · exact le_of_lt (div_neg_of_pos_of_neg (by linarith) hdur)
    have hprog :
        clamp (o.item.easing (jsMin 1 ((t - o.startTime) / o.item.duration))) 0 1 = 0 := by
      rw [heas]
      have hmin : jsMin 1 ((t - o.startTime) / o.item.duration)
          = (t - o.startTime) / o.item.duration := by
        rw [jsMin_eq_min]
        exact min_eq_right (by linarith)
      rw [hmin, linear, clamp_eq]
      rw [min_eq_left (by linarith), max_eq_right hdiv]
    have htick : tickOngoing t s = (s, [TransitionEvent.busProgressed 0,
        TransitionEvent.onProgress o.item.id 0]) := by
      simp only [tickOngoing, hog, hc, Bool.false_eq_true, if_false]
      rw [hprog]
      norm_num
    simp only [TransitionService.compute, hp, htick, List.nil_append]

/-- Witness for `transition_negative_duration_amended` at a concrete active
transition with duration `-1` s. -/
theorem transition_negative_duration_amended_witness :
    ((-1000 : ℚ) < 0 ∧
      (TransitionService.enqueue 3 (-1000) linear initialChannelState).queue
        = [⟨3, false, (-1000) * (1 / 1000), linear⟩]) ∧
    ((ChannelState.mk [] (some ⟨⟨3, false, -1, linear⟩, 0⟩)).ongoing
        = some ⟨⟨3, false, -1, linear⟩, 0⟩ ∧
      TransitionService.compute 2 ⟨[], some ⟨⟨3, false, -1, linear⟩, 0⟩⟩
        = (⟨[], some ⟨⟨3, false, -1, linear⟩, 0⟩⟩,
           [TransitionEvent.busProgressed 0, TransitionEvent.onProgress 3 0])) := by
  constructor
  · exact ⟨by norm_num,
      (transition_negative_duration_amended.1 3 (-1000) linear initialChannelState
        (by norm_num)).1⟩
  · exact ⟨rfl,
      transition_negative_duration_amended.2 2
        ⟨[], some ⟨⟨3, false, -1, linear⟩, 0⟩⟩ ⟨⟨3, false, -1, linear⟩, 0⟩
        rfl rfl (by norm_num) rfl (by norm_num)⟩

/-! ### Events always belong to transitions that have begun -/

/-- Phase 2 either keeps the ongoing slot unchanged or empties it. -/
lemma tickOngoing_ongoing (t : ℚ) (s : ChannelState) :
    (tickOngoing t s).1.ongoing = s.ongoing ∨ (tickOngoing t s).1.ongoing = none := by
  obtain ⟨q, og⟩ := s
  cases og with
  | none => exact Or.inl rfl
  | some o =>
    simp only [tickOngoing]
    split
    · exact Or.inr rfl
    · split
      · exact Or.inr rfl
      · exact Or.inl rfl

/-- Every event of phase 2 belongs to the transition that occupied the
ongoing slot when the phase started. -/
lemma tickOngoing_events (t : ℚ) (s : ChannelState) (ev : TransitionEvent)
    (hev : ev ∈ (tickOngoing t s).2) :
    ∃ o, s.ongoing = some o ∧ ∀ k, eventId ev = some k → k = o.item.id := by
  obtain ⟨q, og⟩ := s
  cases og with
  | none => simp [tickOngoing] at hev
  | some o =>
    refine ⟨o, rfl, ?_⟩
    intro k hk
    simp only [tickOngoing] at hev
    split at hev
    · simp only [List.mem_singleton] at hev
      subst hev
      simp [eventId] at hk
      omega
    · split at hev
      · simp only [List.mem_cons, List.mem_singleton, List.not_mem_nil, or_false] at hev
        rcases hev with h | h | h | h <;> subst h <;> simp [eventId] at hk <;> omega
      · simp only [List.mem_cons, List.mem_singleton, List.not_mem_nil, or_false] at hev
        rcases hev with h | h <;> subst h <;> simp [eventId] at hk
        omega

/-- If a step leaves a transition in the ongoing slot, that transition was
either already ongoing before the step (with the same id) or was begun —
with an `onBegin` event — during the step. -/
lemma stepOp_ongoing_src (s : ChannelState) (op : TransitionOp)
    (o' : OngoingTransition) (h : (stepOp s op).1.ongoing = some o') :
    (∃ o, s.ongoing = some o ∧ o.item.id = o'.item.id) ∨
    TransitionEvent.onBegin o'.item.id ∈ (stepOp s op).2 := by
  obtain ⟨q, og⟩ := s
  cases op with
  | enqueue id d e =>
    exact Or.inl ⟨o', h, rfl⟩
  | cancel =>
    cases og with
    | none => simp [stepOp, TransitionService.cancel] at h
    | some o =>
      left
      refine ⟨o, rfl, ?_⟩
      have heq : (stepOp ⟨q, some o⟩ TransitionOp.cancel).1.ongoing
          = some ⟨{ o.item with cancelled := true }, o.startTime⟩ := rfl
      rw [heq] at h
      injection h with h'
      rw [← h']
  | compute t =>
    cases og with
    | some o =>
      have hp : promote t ⟨q, some o⟩ = (⟨q, some o⟩, []) := by cases q <;> rfl
      have hs : (stepOp ⟨q, some o⟩ (TransitionOp.compute t)).1
          = (tickOngoing t ⟨q, some o⟩).1 := by
        simp [stepOp, TransitionService.compute, hp]
      rw [hs] at h
      rcases tickOngoing_ongoing t ⟨q, some o⟩ with he | he
      · rw [he] at h
        injection h with h'
        exact Or.inl ⟨o, rfl, by rw [h']⟩
      · rw [he] at h
        exact absurd h (by simp)
    | none =>
      cases q with
      | nil =>
        have heq : stepOp ⟨[], none⟩ (TransitionOp.compute t) = (⟨[], none⟩, []) := rfl
        rw [heq] at h
        simp at h
      | cons hitem rest =>
        right
        have hp : promote t ⟨hitem :: rest, none⟩
            = (⟨rest, some ⟨hitem, t⟩⟩, [.onBegin hitem.id]) := rfl
        have hs1 : (stepOp ⟨hitem :: rest, none⟩ (TransitionOp.compute t)).1
            = (tickOngoing t ⟨rest, some ⟨hitem, t⟩⟩).1 := by
          simp [stepOp, TransitionService.compute, hp]
        have hs2 : (stepOp ⟨hitem :: rest, none⟩ (TransitionOp.compute t)).2
            = [TransitionEvent.onBegin hitem.id]
              ++ (tickOngoing t ⟨rest, some ⟨hitem, t⟩⟩).2 := by
          simp [stepOp, TransitionService.compute, hp]
        rw [hs1] at h
        rw [hs2]
        have hid : o'.item.id = hitem.id := by
          rcases tickOngoing_ongoing t ⟨rest, some ⟨hitem, t⟩⟩ with he | he
          · rw [he] at h
            injection h with h'
            rw [← h']
          · rw [he] at h
            exact absurd h (by simp)
        rw [hid]
        simp

/-- Every event a step emits for instance `k` is either an `onBegin` of the
same step or belongs to the transition that was ongoing when the step
started. -/
lemma stepOp_events_src (s : ChannelState) (op : TransitionOp)
    (ev : TransitionEvent) (k : ℕ) (hev : ev ∈ (stepOp s op).2)
    (hid : eventId ev = some k) :
    TransitionEvent.onBegin k ∈ (stepOp s op).2 ∨
    (∃ o, s.ongoing = some o ∧ o.item.id = k) := by
  obtain ⟨q, og⟩ := s
  cases op with
  | enqueue id d e => simp [stepOp] at hev
  | cancel =>
    cases og with
    | none => simp [stepOp, TransitionService.cancel] at hev
    | some o =>
      have heq : (stepOp ⟨q, some o⟩ TransitionOp.cancel).2
          = [TransitionEvent.onCancelled o.item.id] := rfl
      rw [heq] at hev
      simp only [List.mem_singleton] at hev
      subst hev
      simp only [eventId, Option.some.injEq] at hid
      exact Or.inr ⟨o, rfl, hid⟩
  | compute t =>
    cases og with
    | some o =>
      have hp : promote t ⟨q, some o⟩ = (⟨q, some o⟩, []) := by cases q <;> rfl
      have hs2 : (stepOp ⟨q, some o⟩ (TransitionOp.compute t)).2
          = (tickOngoing t ⟨q, some o⟩).2 := by
        simp [stepOp, TransitionService.compute, hp]
      rw [hs2] at hev
      obtain ⟨o2, ho2, hk⟩ := tickOngoing_events t ⟨q, some o⟩ ev hev
      injection ho2 with h'
      right
      refine ⟨o, rfl, ?_⟩
      rw [h']
      exact (hk k hid).symm
    | none =>
      cases q with
      | nil =>
        have heq : stepOp ⟨[], none⟩ (TransitionOp.compute t) = (⟨[], none⟩, []) := rfl
        rw [heq] at hev
        simp at hev
      | cons hitem rest =>
        left
        have hp : promote t ⟨hitem :: rest, none⟩
            = (⟨rest, some ⟨hitem, t⟩⟩, [.onBegin hitem.id]) := rfl
        have hs2 : (stepOp ⟨hitem :: rest, none⟩ (TransitionOp.compute t)).2
            = [TransitionEvent.onBegin hitem.id]
              ++ (tickOngoing t ⟨rest, some ⟨hitem, t⟩⟩).2 := by
          simp [stepOp, TransitionService.compute, hp]
        rw [hs2] at hev ⊢
        rcases List.mem_append.mp hev with h1 | h2
        · simp only [List.mem_singleton] at h1
          subst h1
          simp only [eventId, Option.some.injEq] at hid
          subst hid
          simp
        · obtain ⟨o2, ho2, hk⟩ := tickOngoing_events t ⟨rest, some ⟨hitem, t⟩⟩ ev h2
          injection ho2 with h'
          have h4 : k = hitem.id := by
            rw [hk k hid, ← h']
          subst h4
          simp

/-- Over a whole run, every event for instance `k` is preceded by (or is)
an `onBegin` for `k`, unless a transition with id `k` was already ongoing
at the start. -/
lemma runOps_eventId_src (ops : List TransitionOp) (s : ChannelState)
    (ev : TransitionEvent) (k : ℕ) (hev : ev ∈ (runOps s ops).2)
    (hid : eventId ev = some k) :
    TransitionEvent.onBegin k ∈ (runOps s ops).2 ∨
    (∃ o, s.ongoing = some o ∧ o.item.id = k) := by
  induction ops generalizing s with
  | nil => simp [runOps] at hev
  | cons op rest ih =>
    simp only [runOps] at hev ⊢
    rcases List.mem_append.mp hev with h1 | h2
    · rcases stepOp_events_src s op ev k h1 hid with hb | ho
      · exact Or.inl (List.mem_append.mpr (Or.inl hb))
      · exact Or.inr ho
    · rcases ih (stepOp s op).1 h2 with hb | ⟨o', ho', hk⟩
      · exact Or.inl (List.mem_append.mpr (Or.inr hb))
      · rcases stepOp_ongoing_src s op o' ho' with ⟨o, ho, hid2⟩ | hb
        · exact Or.inr ⟨o, ho, hid2.trans hk⟩
        · rw [hk] at hb
          exact Or.inl (List.mem_append.mpr (Or.inl hb))

/-- C10: cancelling a channel discards every queued, not-yet-active
transition silently.  The cancel handler empties the queue and emits only
the ongoing transition's `onCancelled` (nothing at all when idle); and over
any run from a fresh channel, a transition that never begins receives no
callback and no bus event: every event in the trace with an instance id
belongs to a begun transition. -/
theorem cancel_discards_queued_silently (ops : List TransitionOp) (k : ℕ)
    (h : TransitionEvent.onBegin k ∉ (runOps initialChannelState ops).2) :
    (∀ ev ∈ (runOps initialChannelState ops).2, eventId ev ≠ some k) ∧
    (∀ s : ChannelState,
      (TransitionService.cancel s).1.queue = [] ∧
      (TransitionService.cancel s).2 =
        (match s.ongoing with
         | some o => [TransitionEvent.onCancelled o.item.id]
         | none => [])) := by
  constructor
  · intro ev hev hid
    rcases runOps_eventId_src ops initialChannelState ev k hev hid with hb | ⟨o, ho, _⟩
    · exact h hb
    · simp [initialChannelState] at ho
  · intro s
    obtain ⟨q, og⟩ := s
    cases og <;> simp [TransitionService.cancel]

/-- Witness for `cancel_discards_queued_silently`: transition `6` is
enqueued behind `5`, the cancel arrives while `5` is active, and `6` —
never begun — is mentioned by no event in the whole trace. -/
theorem cancel_discards_queued_silently_witness :
    (TransitionEvent.onBegin 6 ∉ (runOps initialChannelState
        [TransitionOp.enqueue 5 1000 linear, TransitionOp.enqueue 6 1000 linear,
         TransitionOp.compute 0, TransitionOp.cancel, TransitionOp.compute 1]).2) ∧
    (∀ ev ∈ (runOps initialChannelState
        [TransitionOp.enqueue 5 1000 linear, TransitionOp.enqueue 6 1000 linear,
         TransitionOp.compute 0, TransitionOp.cancel, TransitionOp.compute 1]).2,
      eventId ev ≠ some 6) := by
  have hne : TransitionEvent.onBegin 6 ∉ (runOps initialChannelState
      [TransitionOp.enqueue 5 1000 linear, TransitionOp.enqueue 6 1000 linear,
       TransitionOp.compute 0, TransitionOp.cancel, TransitionOp.compute 1]).2 := by
    intro hmem
    have htr : (runOps initialChannelState
        [TransitionOp.enqueue 5 1000 linear, TransitionOp.enqueue 6 1000 linear,
         TransitionOp.compute 0, TransitionOp.cancel, TransitionOp.compute 1]).2
      = [TransitionEvent.onBegin 5, TransitionEvent.busProgressed 0,
         TransitionEvent.onProgress 5 0, TransitionEvent.onCancelled 5,
         TransitionEvent.onCancelled 5] := by with_unfolding_all rfl
    rw [htr] at hmem
    simp at hmem
  exact ⟨hne,
    (cancel_discards_queued_silently
      [TransitionOp.enqueue 5 1000 linear, TransitionOp.enqueue 6 1000 linear,
       TransitionOp.compute 0, TransitionOp.cancel, TransitionOp.compute 1] 6 hne).1⟩

/-!
## Simulation renderer service (`simulationRendererService.ts`, lib variant)

`setPositionAtlas` validates the atlas width against
`singleTextureSize * numMeshes` before storing the entry and rewiring the
two compute passes' atlas-dependent uniforms (`uPositionAtlas`,
`uNumMeshes`, `uSingleTextureSize`).  Textures are modelled by their
dimensions plus an identity tag; the cross-dependency texture uniforms
(`uCurrentPosition`/`uCurrentVelocity`), which do not depend on the atlas
entry's validity, are outside the model.
-/

/-- A texture as far as validation is concerned: its image dimensions and
an identity tag. -/
structure TextureImage where
  width : ℕ
  height : ℕ
  tag : ℕ
deriving DecidableEq

/-- `PositionAtlasEntry` from `simulationRenderer.ts`. -/
structure PositionAtlasEntry where
  dataTexture : TextureImage
  numMeshes : ℕ
  singleTextureSize : ℕ
  textureSize : ℕ
deriving DecidableEq

/-- The atlas-dependent uniforms of one compute pass. -/
structure SimulationUniforms where
  uPositionAtlas : Option TextureImage
  uNumMeshes : ℕ
  uSingleTextureSize : ℕ
deriving DecidableEq

/-- The atlas-dependent state of `SimulationRendererService` together with
the wrapped `SimulationRenderer`'s two passes. -/
structure SimulationRendererServiceState where
  currentAtlasEntry : Option PositionAtlasEntry
  positionUniforms : SimulationUniforms
  velocityUniforms : SimulationUniforms
deriving DecidableEq

/-- A diagnostic bus event emitted by a service. -/
inductive ServiceEvent where
  | invalidRequest (message : String)
deriving DecidableEq

/-- `SimulationRendererService.setPositionAtlas`: if
`entry.dataTexture.image.width !== singleTextureSize * numMeshes`, emit
`invalidRequest` and return; otherwise store the entry and forward to
`SimulationRenderer.setPositionAtlas`, which sets both passes'
`uPositionAtlas`, `uNumMeshes` (guarded to at least 1) and
`uSingleTextureSize`. -/
def SimulationRendererService.setPositionAtlas (entry : PositionAtlasEntry)
    (s : SimulationRendererServiceState) :
    SimulationRendererServiceState × List ServiceEvent :=
  let expectedWidth := entry.singleTextureSize * entry.numMeshes
  if entry.dataTexture.width ≠ expectedWidth then
    (s, [.invalidRequest "Atlas texture width mismatch."])
  else
    let numMeshes := if entry.numMeshes > 0 then entry.numMeshes else 1
    ({ currentAtlasEntry := some entry,
       positionUniforms :=
         { uPositionAtlas := some entry.dataTexture,
           uNumMeshes := numMeshes,
           uSingleTextureSize := entry.singleTextureSize },
       velocityUniforms :=
         { uPositionAtlas := some entry.dataTexture,
           uNumMeshes := numMeshes,
           uSingleTextureSize := entry.singleTextureSize } }, [])

/-- C4: setting a position atlas whose texture width differs from
`singleTextureSize × numMeshes` emits an `invalidRequest` event and returns
normally without applying anything: the stored atlas entry and both
passes' atlas-dependent uniforms are exactly as before, so the previous
atlas remains authoritative.  (With a matching width the entry *is*
applied, so the validation is the only gate.) -/
theorem setPositionAtlas_validation (entry : PositionAtlasEntry)
    (s : SimulationRendererServiceState)
    (h : entry.dataTexture.width ≠ entry.singleTextureSize * entry.numMeshes) :
    SimulationRendererService.setPositionAtlas entry s
      = (s, [ServiceEvent.invalidRequest "Atlas texture width mismatch."]) ∧
    (SimulationRendererService.setPositionAtlas entry s).1.currentAtlasEntry
      = s.currentAtlasEntry ∧
    (SimulationRendererService.setPositionAtlas entry s).1.positionUniforms
      = s.positionUniforms ∧
    (SimulationRendererService.setPositionAtlas entry s).1.velocityUniforms
      = s.velocityUniforms ∧
    (∀ entry' : PositionAtlasEntry,
      entry'.dataTexture.width = entry'.singleTextureSize * entry'.numMeshes →
      (SimulationRendererService.setPositionAtlas entry' s).1.currentAtlasEntry
        = some entry') := by
  have he : SimulationRendererService.setPositionAtlas entry s
      = (s, [ServiceEvent.invalidRequest "Atlas texture width mismatch."]) := by
    simp [SimulationRendererService.setPositionAtlas, h]
  refine ⟨he, by rw [he], by rw [he], by rw [he], ?_⟩
  intro entry' h'
  simp [SimulationRendererService.setPositionAtlas, h']

/-- Witness for `setPositionAtlas_validation`: a 100-wide atlas offered as
2 meshes of size 32 (expected width 64) is rejected and changes nothing. -/
theorem setPositionAtlas_validation_witness :
    ((100 : ℕ) ≠ 32 * 2) ∧
    SimulationRendererService.setPositionAtlas
        ⟨⟨100, 32, 0⟩, 2, 32, 32⟩
        ⟨none, ⟨none, 1, 64⟩, ⟨none, 1, 64⟩⟩
      = (⟨none, ⟨none, 1, 64⟩, ⟨none, 1, 64⟩⟩,
         [ServiceEvent.invalidRequest "Atlas texture width mismatch."]) :=
  ⟨by decide,
   (setPositionAtlas_validation ⟨⟨100, 32, 0⟩, 2, 32, 32⟩
      ⟨none, ⟨none, 1, 64⟩, ⟨none, 1, 64⟩⟩ (by decide)).1⟩

/-!
## Engine coordinator (`src/lib/particlesEngine.ts`, sequence variant)

The coordinator owns the engine state and fans parameter changes out to the
services.  Calls into collaborating services are recorded as
`EngineEffect`s, in call order; the mesh-sequence transition channel is
embedded directly so that the synchronous `transitionCancelled` dispatch
(via the `mitt` event bus) can be observed.
-/

/-- A call from the coordinator into one of its subsystems. -/
inductive EngineEffect where
  | simulationSetOverallProgress (p : ℚ)
  | intersectionSetOverallProgress (p : ℚ)
  | rendererUpdateTextureInterpolation
  | dataTextureSetTextureSize (size : ℕ)
  | simulationSetTextureSize (size : ℕ)
  | instancedMeshResize (size : ℕ)
  | reapplyMeshSequence
  | simulationSetVelocityTractionForce (f : ℚ)
  | simulationSetPositionalTractionForce (f : ℚ)
  | simulationSetMaxRepelDistance (d : ℚ)
  | instancedMeshSetGeometrySize
deriving DecidableEq

/-- The engine-state fields involved in the progress and texture-size
setters, together with the scheduler's `mesh-sequence` channel (reachable
synchronously through the event bus). -/
structure EngineModel where
  textureSize : ℕ
  overallProgress : ℚ
  meshSequence : List String
  velocityTractionForce : ℚ
  positionalTractionForce : ℚ
  maxRepelDistance : ℚ
  meshSequenceChannel : ChannelState

/-- `ParticlesEngine.setOverallProgress(progress, override = true)`: when
`override`, first emits `transitionCancelled{type: 'mesh-sequence'}`, which
the `TransitionService` handles synchronously (`mitt` dispatches in-line);
then clamps the progress to `[0,1]`, stores it, and pushes it to the
simulation renderer, the intersection service and the instanced-mesh
texture interpolation. -/
def ParticlesEngine.setOverallProgress (progress : ℚ) (e : EngineModel)
    (override : Bool := true) :
    EngineModel × List TransitionEvent × List EngineEffect :=
  let cancelResult :=
    if override then TransitionService.cancel e.meshSequenceChannel
    else (e.meshSequenceChannel, [])
  let clampedProgress := clamp progress 0 1
  ({ e with
      overallProgress := clampedProgress,
      meshSequenceChannel := cancelResult.1 },
   cancelResult.2,
   [.simulationSetOverallProgress clampedProgress,
    .intersectionSetOverallProgress clampedProgress,
    .rendererUpdateTextureInterpolation])

/-- C9: `setOverallProgress` with the default `override = true` cancels the
`mesh-sequence` channel synchronously: the pending queue is emptied, the
active transition (if any) is marked cancelled and its `onCancelled`
callback is invoked during the call itself; a queued-but-never-begun
transition gets no event.  The clamped progress is stored and fanned out. -/
theorem setOverallProgress_cancels_mesh_sequence (p : ℚ) (e : EngineModel) :
    (ParticlesEngine.setOverallProgress p e).1.meshSequenceChannel.queue = [] ∧
    ((ParticlesEngine.setOverallProgress p e).2.1
      = match e.meshSequenceChannel.ongoing with
        | some o => [TransitionEvent.onCancelled o.item.id]
        | none => []) ∧
    (∀ o, e.meshSequenceChannel.ongoing = some o →
      (ParticlesEngine.setOverallProgress p e).1.meshSequenceChannel.ongoing
        = some ⟨{ o.item with cancelled := true }, o.startTime⟩) ∧
    (ParticlesEngine.setOverallProgress p e).1.overallProgress = clamp p 0 1 ∧
    (ParticlesEngine.setOverallProgress p e).2.2
      = [.simulationSetOverallProgress (clamp p 0 1),
         .intersectionSetOverallProgress (clamp p 0 1),
         .rendererUpdateTextureInterpolation] := by
  obtain ⟨ts, op, ms, v, pf, mr, chan⟩ := e
  obtain ⟨q, og⟩ := chan
  cases og with
  | none =>
    refine ⟨rfl, rfl, ?_, rfl, rfl⟩
    intro o h
    cases h
  | some o =>
    refine ⟨rfl, rfl, ?_, rfl, rfl⟩
    intro o2 h
    cases h
    rfl

/-- Witness for `setOverallProgress_cancels_mesh_sequence`: an engine with
an active and a queued mesh-sequence transition; the manual progress set
drops the queued one, marks the active one cancelled and fires its
`onCancelled` synchronously. -/
theorem setOverallProgress_cancels_mesh_sequence_witness :
    (ParticlesEngine.setOverallProgress (1/2)
        ⟨64, 0, [], 1/10, 1/10, 3/10,
         ⟨[⟨11, false, 1, linear⟩], some ⟨⟨9, false, 1, linear⟩, 0⟩⟩⟩).1.meshSequenceChannel.queue
      = [] ∧
    (ParticlesEngine.setOverallProgress (1/2)
        ⟨64, 0, [], 1/10, 1/10, 3/10,
         ⟨[⟨11, false, 1, linear⟩], some ⟨⟨9, false, 1, linear⟩, 0⟩⟩⟩).2.1
      = [TransitionEvent.onCancelled 9] := by
  have h := setOverallProgress_cancels_mesh_sequence (1/2)
    ⟨64, 0, [], 1/10, 1/10, 3/10,
     ⟨[⟨11, false, 1, linear⟩], some ⟨⟨9, false, 1, linear⟩, 0⟩⟩⟩
  exact ⟨h.1, h.2.1⟩

/-!
## Texture-size setters and the no-op guard

`ParticlesEngine.setTextureSize` (sequence variant) begins with
`if (this.engineState.textureSize === size) return;`.  Past the guard it
stores the new size and fans out: data-texture cache reset, simulation
re-creation, instanced-mesh resize, (twice, as written) re-application of
a non-empty mesh sequence, re-application of the force parameters and the
progress, and the geometry scale; these downstream calls are recorded as
effects.  The data-texture service has its own identical guard
(`DataTextureService.setTextureSize`), which otherwise drops its S-specific
sampler cache and atlas. -/

/-- The cache-relevant state of `DataTextureService` (atlas variant). -/
structure DataTextureServiceState where
  textureSize : ℕ
  dataTextureKeys : List String
  currentAtlas : Option ℕ
deriving DecidableEq

/-- `DataTextureService.setTextureSize`: unchanged size returns
immediately; a new size is stored and the cached data textures and the
current atlas are disposed and cleared. -/
def DataTextureService.setTextureSize (textureSize : ℕ)
    (s : DataTextureServiceState) : DataTextureServiceState :=
  if s.textureSize = textureSize then s
  else { textureSize := textureSize, dataTextureKeys := [], currentAtlas := none }

/-- `ParticlesEngine.setTextureSize`: the no-op guard, then the stored
size update and the fan-out sequence of lines 117–141 (each subsystem call
recorded as one effect; the two conditional `setMeshSequence` awaits appear
as written). -/
def ParticlesEngine.setTextureSize (size : ℕ) (e : EngineModel) :
    EngineModel × List EngineEffect :=
  if e.textureSize = size then (e, [])
  else
    ({ e with textureSize := size },
     [.dataTextureSetTextureSize size, .simulationSetTextureSize size,
      .instancedMeshResize size]
     ++ (if e.meshSequence.length > 0 then [.reapplyMeshSequence] else [])
     ++ (if e.meshSequence.length > 0 then [.reapplyMeshSequence] else [])
     ++ [.simulationSetVelocityTractionForce e.velocityTractionForce,
         .simulationSetPositionalTractionForce e.positionalTractionForce,
         .simulationSetMaxRepelDistance e.maxRepelDistance,
         .simulationSetOverallProgress e.overallProgress,
         .intersectionSetOverallProgress e.overallProgress,
         .instancedMeshSetGeometrySize,
         .simulationSetOverallProgress (clamp e.overallProgress 0 1),
         .intersectionSetOverallProgress (clamp e.overallProgress 0 1),
         .rendererUpdateTextureInterpolation])

/-- C7: calling the coordinator's texture-size setter with the currently
stored size is a complete no-op — the state is returned unchanged and no
subsystem call happens (no cache clear, no simulation re-creation, no
renderer resize, no atlas rebuild); the data-texture service's own guard
likewise returns its state untouched.  A different size, by contrast,
always produces subsystem calls. -/
theorem setTextureSize_noop (e : EngineModel) (d : DataTextureServiceState) :
    ParticlesEngine.setTextureSize e.textureSize e = (e, []) ∧
    DataTextureService.setTextureSize d.textureSize d = d ∧
    (∀ size : ℕ, size ≠ e.textureSize →
      (ParticlesEngine.setTextureSize size e).2 ≠ []) := by
  refine ⟨?_, ?_, ?_⟩
  · simp [ParticlesEngine.setTextureSize]
  · simp [DataTextureService.setTextureSize]
  · intro size hne
    simp only [ParticlesEngine.setTextureSize, if_neg (Ne.symm hne)]
    simp

/-- Witness for `setTextureSize_noop` at a concrete engine state with
texture size 64. -/
theorem setTextureSize_noop_witness :
    ParticlesEngine.setTextureSize 64
        ⟨64, 0, [], 1/10, 1/10, 3/10, initialChannelState⟩
      = (⟨64, 0, [], 1/10, 1/10, 3/10, initialChannelState⟩, []) ∧
    DataTextureService.setTextureSize 64 ⟨64, [], none⟩ = ⟨64, [], none⟩ := by
  have h := setTextureSize_noop
    ⟨64, 0, [], 1/10, 1/10, 3/10, initialChannelState⟩ ⟨64, [], none⟩
  exact ⟨h.1, h.2.1⟩

/-!
## Mesh surface sampler (`sampleMesh` in `dataTextureService.ts`)

The sampler builds a three.js `MeshSurfaceSampler` (area-weighted surface
sampling, external to this repository) and fills a `size*size*4`
`Float32Array`: for slot `index = i*size + j` it writes the sampled point's
coordinates multiplied by the mesh scale into channels 0–2 and
`(Math.random() - 0.5) * 0.01` into channel 3.  The two external sources —
the surface sampler and `Math.random` — are modelled as input streams
indexed by the slot; `Math.random` is assumed to yield values in `[0, 1)`.
-/

/-- One 4-component sample slot of the produced grid. -/
structure SampleTexel where
  x : ℚ
  y : ℚ
  z : ℚ
  w : ℚ
deriving DecidableEq

/-- `sampleMesh(meshData, size)`: the double loop over `i, j < size`, one
surface sample and one random draw per slot `index = i*size + j`. -/
def sampleMesh (samplePoint : ℕ → ℚ × ℚ × ℚ) (random : ℕ → ℚ)
    (scale : ℚ × ℚ × ℚ) (size : ℕ) : List SampleTexel :=
  (List.range size).flatMap fun i =>
    (List.range size).map fun j =>
      let index := i * size + j
      let p := samplePoint index
      ⟨p.1 * scale.1, p.2.1 * scale.2.1, p.2.2 * scale.2.2,
       (random index - 1/2) * (1/100)⟩

/-- C8: for any positive resolution `S` and any surface-sample stream (any
mesh with a non-empty position attribute), the sampler returns exactly `S²`
four-component samples, and channel 3 (the jitter seed) of every sample
lies within `[-0.005, 0.005]` whenever the random source obeys the
`Math.random` contract `[0, 1)`. -/
theorem sampleMesh_spec (samplePoint : ℕ → ℚ × ℚ × ℚ) (random : ℕ → ℚ)
    (scale : ℚ × ℚ × ℚ) (size : ℕ) (_hS : 0 < size)
    (hr : ∀ n, 0 ≤ random n ∧ random n < 1) :
    (sampleMesh samplePoint random scale size).length = size * size ∧
    (∀ tex ∈ sampleMesh samplePoint random scale size,
      -(5/1000) ≤ tex.w ∧ tex.w ≤ 5/1000) := by
  constructor
  · simp [sampleMesh, List.length_flatMap, Function.comp_def]
  · intro tex htex
    simp only [sampleMesh, List.mem_flatMap, List.mem_map, List.mem_range] at htex
    obtain ⟨i, hi, j, hj, htex⟩ := htex
    obtain ⟨h0, h1⟩ := hr (i * size + j)
    constructor
    · rw [← htex]
      dsimp only
      nlinarith
    · rw [← htex]
      dsimp only
      nlinarith

/-- Witness for `sampleMesh_spec` at size 2 with constant streams. -/
theorem sampleMesh_spec_witness :
    ((0 < 2) ∧ (∀ n : ℕ, 0 ≤ (fun _ : ℕ => (1 : ℚ)/3) n ∧ (fun _ : ℕ => (1 : ℚ)/3) n < 1)) ∧
    (sampleMesh (fun _ => (1, 2, 3)) (fun _ => 1/3) (1, 1, 1) 2).length = 2 * 2 ∧
    (∀ tex ∈ sampleMesh (fun _ => ((1 : ℚ), (2 : ℚ), (3 : ℚ))) (fun _ => 1/3) (1, 1, 1) 2,
      -(5/1000) ≤ tex.w ∧ tex.w ≤ 5/1000) :=
  ⟨⟨by norm_num, fun n => by norm_num⟩,
   sampleMesh_spec (fun _ => (1, 2, 3)) (fun _ => 1/3) (1, 1, 1) 2
     (by norm_num) (fun n => by norm_num)⟩

/-!
## Atlas builder (`DataTextureService.createSequenceDataTextureAtlas`)

The builder allocates a `Float32Array` of `atlasWidth * atlasHeight * 4`
zeroes (`atlasWidth = singleTextureSize * numMeshes`, `atlasHeight =
singleTextureSize`) and, for each mesh `i` and each texel `(y, x)`, copies
the four RGBA components from `sourceIndex = (y*singleTextureSize + x)*4`
of mesh `i`'s data texture to `targetIndex = (y*atlasWidth + (x +
i*singleTextureSize))*4`.  An empty mesh array raises
`Error('Mesh array cannot be empty.')`, modelled as `Except.error`.

Each mesh's data texture is its flat `Float32Array`, modelled as `ℕ → ℚ`;
the imperative loop nest is rendered as a left fold of single-texel writes
over the loop's index triples in loop order.
-/

/-- `meshes[i]`'s data (`meshDataTexture.image.data`); out-of-range reads
(never exercised in range) default to the zero array. -/
def gridAt (grids : List (ℕ → ℚ)) (i : ℕ) : ℕ → ℚ := grids.getD i (fun _ => 0)

/-- `targetIndex` of the copy loop for the texel `t = (i, y, x)`:
`(y * atlasWidth + (x + i * singleTextureSize)) * 4`. -/
def texelTarget (S M : ℕ) (t : ℕ × ℕ × ℕ) : ℕ :=
  (t.2.1 * (S * M) + (t.2.2 + t.1 * S)) * 4

/-- `sourceIndex + c` of the copy loop for texel `t = (i, y, x)` and
component `c`: `(y * singleTextureSize + x) * 4 + c`. -/
def texelSource (S : ℕ) (t : ℕ × ℕ × ℕ) (c : ℕ) : ℕ :=
  (t.2.1 * S + t.2.2) * 4 + c

/-- The body of the copy loop: writes the four components of texel
`t = (i, y, x)` of grid `i` into the atlas array `a`. -/
def writeTexel (S M : ℕ) (grids : List (ℕ → ℚ)) (a : ℕ → ℚ)
    (t : ℕ × ℕ × ℕ) : ℕ → ℚ :=
  fun idx =>
    if idx = texelTarget S M t then gridAt grids t.1 (texelSource S t 0)
    else if idx = texelTarget S M t + 1 then gridAt grids t.1 (texelSource S t 1)
    else if idx = texelTarget S M t + 2 then gridAt grids t.1 (texelSource S t 2)
    else if idx = texelTarget S M t + 3 then gridAt grids t.1 (texelSource S t 3)
    else a idx

/-- The loop nest's index triples `(i, y, x)` in loop order:
`for i < numMeshes, for y < S, for x < S`. -/
def atlasWrites (S M : ℕ) : List (ℕ × ℕ × ℕ) :=
  (List.range M).flatMap fun i =>
    (List.range S).flatMap fun y =>
      (List.range S).map fun x => (i, y, x)

/-- The produced atlas: a `DataTexture` of the given dimensions over the
filled flat array. -/
structure DataTextureAtlas where
  width : ℕ
  height : ℕ
  data : ℕ → ℚ

/-- `DataTextureService.createSequenceDataTextureAtlas(meshes,
singleTextureSize)`: throws on an empty mesh array, otherwise fills the
`(S*M) × S` atlas by the copy loop. -/
def createSequenceDataTextureAtlas (grids : List (ℕ → ℚ))
    (singleTextureSize : ℕ) : Except String DataTextureAtlas :=
  let numMeshes := grids.length
  if numMeshes = 0 then Except.error "Mesh array cannot be empty."
  else
    Except.ok
      { width := singleTextureSize * numMeshes
        height := singleTextureSize
        data := (atlasWrites singleTextureSize numMeshes).foldl
          (writeTexel singleTextureSize numMeshes grids) (fun _ => 0) }

/-- Membership in the loop's index list is exactly the loop bounds. -/
lemma mem_atlasWrites (S M : ℕ) (t : ℕ × ℕ × ℕ) :
    t ∈ atlasWrites S M ↔ t.1 < M ∧ t.2.1 < S ∧ t.2.2 < S := by
  obtain ⟨i, y, x⟩ := t
  constructor
  · intro h
    simp only [atlasWrites, List.mem_flatMap, List.mem_map, List.mem_range] at h
    obtain ⟨i', hi', y', hy', x', hx', heq⟩ := h
    obtain ⟨h1, h2, h3⟩ := Prod.mk.injEq .. ▸ heq
    · exact ⟨h1 ▸ hi', by simp_all⟩
  · rintro ⟨hi, hy, hx⟩
    simp only [atlasWrites, List.mem_flatMap, List.mem_map, List.mem_range]
    exact ⟨i, hi, y, hy, x, hx, rfl⟩

/-- Division-free uniqueness of the `a*W + r` decomposition. -/
lemma addMulCancel {W a b r s : ℕ} (hr : r < W) (hs : s < W)
    (h : a * W + r = b * W + s) : a = b ∧ r = s := by
  have key : ∀ a' b' r' s' : ℕ, r' < W → a' < b' → a' * W + r' < b' * W + s' := by
    intro a' b' r' s' hr' hab
    calc a' * W + r' < a' * W + W := Nat.add_lt_add_left hr' _
    _ = (a' + 1) * W := by ring
    _ ≤ b' * W := Nat.mul_le_mul_right W hab
    _ ≤ b' * W + s' := Nat.le_add_right _ _
  rcases Nat.lt_trichotomy a b with hab | hab | hab
  · exact absurd h (Nat.ne_of_lt (key a b r s hr hab))
  · subst hab
    exact ⟨rfl, Nat.add_left_cancel h⟩
  · exact absurd h.symm (Nat.ne_of_lt (key b a s r hs hab))

/-- Within the loop bounds, the target index map is injective: distinct
`(mesh, row, column, component)` quadruples write distinct array cells. -/
lemma texelTarget_inj (S M : ℕ) (i y x c i' y' x' c' : ℕ)
    (hi : i < M) (hx : x < S) (hc : c < 4)
    (hi' : i' < M) (hx' : x' < S) (hc' : c' < 4)
    (h : (y * (S * M) + (x + i * S)) * 4 + c
       = (y' * (S * M) + (x' + i' * S)) * 4 + c') :
    i = i' ∧ y = y' ∧ x = x' ∧ c = c' := by
  have hxiS : x + i * S < S * M := by
    calc x + i * S < S + i * S := by omega
    _ = (i + 1) * S := by ring
    _ ≤ M * S := Nat.mul_le_mul_right S hi
    _ = S * M := Nat.mul_comm M S
  have hxiS' : x' + i' * S < S * M := by
    calc x' + i' * S < S + i' * S := by omega
    _ = (i' + 1) * S := by ring
    _ ≤ M * S := Nat.mul_le_mul_right S hi'
    _ = S * M := Nat.mul_comm M S
  obtain ⟨hP, hcc⟩ := addMulCancel hc hc' h
  obtain ⟨hyy, hxx⟩ := addMulCancel hxiS hxiS' hP
  have h4 : x + i * S = x' + i' * S := hxx
  have h5 : i * S + x = i' * S + x' := by linarith
  obtain ⟨hii, hxx'⟩ := addMulCancel hx hx' h5
  exact ⟨hii, hyy, hxx', hcc⟩

/-- A fold of texel writes leaves untargeted cells untouched. -/
lemma foldl_writeTexel_notin (S M : ℕ) (grids : List (ℕ → ℚ))
    (l : List (ℕ × ℕ × ℕ)) (a : ℕ → ℚ) (idx : ℕ)
    (h : ∀ t ∈ l, ∀ c < 4, idx ≠ texelTarget S M t + c) :
    l.foldl (writeTexel S M grids) a idx = a idx := by
  induction l generalizing a with
  | nil => rfl
  | cons hd tl ih =>
    rw [List.foldl_cons,
      ih (writeTexel S M grids a hd)
        (fun t ht c hc => h t (List.mem_cons_of_mem _ ht) c hc)]
    have h0 := h hd (List.mem_cons_self _ _) 0 (by norm_num)
    have h1 := h hd (List.mem_cons_self _ _) 1 (by norm_num)
    have h2 := h hd (List.mem_cons_self _ _) 2 (by norm_num)
    have h3 := h hd (List.mem_cons_self _ _) 3 (by norm_num)
    simp only [writeTexel]
    rw [if_neg (by omega), if_neg h1, if_neg h2, if_neg h3]

lemma add_offset_ne (n k : ℕ) (hk : k ≠ 0) : n + k ≠ n :=
  fun h => hk (Nat.add_left_cancel (h.trans (Nat.add_zero n).symm))

lemma add_offset_ne' (n a b : ℕ) (hab : a ≠ b) : n + a ≠ n + b :=
  fun h => hab (Nat.add_left_cancel h)

/-- A single write read back at component `c` of its own target texel. -/
lemma writeTexel_read_self (S M : ℕ) (grids : List (ℕ → ℚ)) (a : ℕ → ℚ)
    (t : ℕ × ℕ × ℕ) (c : ℕ) (hc : c < 4) :
    writeTexel S M grids a t (texelTarget S M t + c)
      = gridAt grids t.1 (texelSource S t c) := by
  interval_cases c
  · rw [Nat.add_zero]
    unfold writeTexel
    rw [if_pos rfl]
  · unfold writeTexel
    rw [if_neg (add_offset_ne _ 1 (by decide)), if_pos rfl]
  · unfold writeTexel
    rw [if_neg (add_offset_ne _ 2 (by decide)),
      if_neg (add_offset_ne' _ 2 1 (by decide)), if_pos rfl]
  · unfold writeTexel
    rw [if_neg (add_offset_ne _ 3 (by decide)),
      if_neg (add_offset_ne' _ 3 1 (by decide)),
      if_neg (add_offset_ne' _ 3 2 (by decide)), if_pos rfl]

/-- Reading back a targeted cell after the fold returns the component
written for it, provided no other write in the list targets it. -/
lemma foldl_writeTexel_read (S M : ℕ) (grids : List (ℕ → ℚ))
    (l : List (ℕ × ℕ × ℕ)) (a : ℕ → ℚ) (t : ℕ × ℕ × ℕ) (c idx : ℕ)
    (hc : c < 4) (ht : t ∈ l)
    (hothers : ∀ t' ∈ l, t' ≠ t → ∀ c' < 4, idx ≠ texelTarget S M t' + c')
    (hidx : idx = texelTarget S M t + c) :
    l.foldl (writeTexel S M grids) a idx = gridAt grids t.1 (texelSource S t c) := by
  induction l generalizing a with
  | nil => cases ht
  | cons hd tl ih =>
    rw [List.foldl_cons]
    by_cases htl : t ∈ tl
    · exact ih _ htl (fun t' ht' => hothers t' (List.mem_cons_of_mem _ ht'))
    · have hhd : t = hd := by
        rcases List.mem_cons.mp ht with h | h
        · exact h
        · exact absurd h htl
      subst hhd
      have hnot : ∀ t' ∈ tl, ∀ c' < 4, idx ≠ texelTarget S M t' + c' := by
        intro t' ht' c' hc'
        exact hothers t' (List.mem_cons_of_mem _ ht')
          (fun heq => htl (heq ▸ ht')) c' hc'
      rw [foldl_writeTexel_notin S M grids tl _ idx hnot]
      subst hidx
      exact writeTexel_read_self S M grids a t c hc

/-- C6: building the atlas from `M = grids.length ≥ 1` grids of size `S×S`
yields `Except.ok` with width exactly `S*M` and height `S`, and for every
mesh `i < M`, texel `(y, x)` and component `c < 4` the atlas cell at
horizontal offset `i*S` holds exactly grid `i`'s component — every RGBA
component copied unchanged; the empty list yields a validation error
(`Except.error`), not a crash. -/
theorem createSequenceDataTextureAtlas_spec (grids : List (ℕ → ℚ)) (S : ℕ)
    (h : grids ≠ []) :
    (∃ atlas : DataTextureAtlas,
      createSequenceDataTextureAtlas grids S = Except.ok atlas ∧
      atlas.width = S * grids.length ∧
      atlas.height = S ∧
      (∀ i y x c, i < grids.length → y < S → x < S → c < 4 →
        atlas.data ((y * (S * grids.length) + (x + i * S)) * 4 + c)
          = gridAt grids i ((y * S + x) * 4 + c))) ∧
    (∀ S' : ℕ, createSequenceDataTextureAtlas [] S'
      = Except.error "Mesh array cannot be empty.") := by
  constructor
  · have hlen : grids.length ≠ 0 := by
      simpa [List.length_eq_zero] using h
    refine ⟨⟨S * grids.length, S,
      (atlasWrites S grids.length).foldl
        (writeTexel S grids.length grids) (fun _ => 0)⟩, ?_, rfl, rfl, ?_⟩
    · simp [createSequenceDataTextureAtlas, hlen]
    · intro i y x c hi hy hx hc
      apply foldl_writeTexel_read S grids.length grids _ _ (i, y, x) c _ hc
      · exact (mem_atlasWrites _ _ _).mpr ⟨hi, hy, hx⟩
      · intro t' ht' hne c' hc' heq
        obtain ⟨hi', hy', hx'⟩ := (mem_atlasWrites _ _ _).mp ht'
        obtain ⟨t1, t2, t3⟩ := t'
        obtain ⟨h1, h2, h3, _⟩ :=
          texelTarget_inj S grids.length i y x c t1 t2 t3 c'
            hi hx hc hi' hx' hc' heq
        exact hne (by simp [← h1, ← h2, ← h3])
      · rfl
  · intro S'
    rfl

/-- Witness for `createSequenceDataTextureAtlas_spec`: two 1×1 grids; the
atlas is 2×1, the second grid's blue component lands at cell 6 unchanged,
and the empty build fails with the validation error. -/
theorem createSequenceDataTextureAtlas_spec_witness :
    (([(fun n => (n : ℚ)), (fun n => (n : ℚ) + 100)] : List (ℕ → ℚ)) ≠ []) ∧
    (∃ atlas : DataTextureAtlas,
      createSequenceDataTextureAtlas
          [(fun n => (n : ℚ)), (fun n => (n : ℚ) + 100)] 1
        = Except.ok atlas ∧
      atlas.width = 1 * 2 ∧ atlas.height = 1 ∧
      atlas.data ((0 * (1 * 2) + (0 + 1 * 1)) * 4 + 2) = 102) ∧
    createSequenceDataTextureAtlas ([] : List (ℕ → ℚ)) 5
      = Except.error "Mesh array cannot be empty." := by
  have h := createSequenceDataTextureAtlas_spec
    [(fun n => (n : ℚ)), (fun n => (n : ℚ) + 100)] 1 (by simp)
  obtain ⟨⟨atlas, hok, hw, hh, hcopy⟩, hempty⟩ := h
  refine ⟨by simp, ⟨atlas, hok, hw, hh, ?_⟩, hempty 5⟩
  have hc := hcopy 1 0 0 2 (by norm_num) (by norm_num) (by norm_num) (by norm_num)
  norm_num [gridAt, List.getD] at hc
  norm_num
  exact hc

end Ionian
